import Mathlib

/-!
Verification of the minerva-ui animated-entity simulation and heat-rendering
layer, shallowly embedded from `src/unnamed/part_003` and
`src/src/components/HeatMap.tsx`.

JS numbers are modelled as exact rationals.  The `Math` trigonometric
functions used by the source (`Math.sin`, `Math.cos`, `Math.atan2`,
`Math.PI`) are abstracted into a `Trig` structure of rational-valued
functions; theorems that depend on their analytic properties take those
properties as hypotheses.  The JS `%` operator (remainder with the sign of
the dividend) is modelled exactly by `jsMod`.
-/

namespace Minerva

/-- Truncation toward zero, as JS division underlying the `%` operator. -/
def ratTrunc (q : ℚ) : ℤ := if 0 ≤ q then ⌊q⌋ else ⌈q⌉

/-- The JS remainder `a % m` for finite operands: `a - m * trunc (a / m)`.
It carries the sign of the dividend `a`, unlike mathematical `mod`. -/
def jsMod (a m : ℚ) : ℚ := a - m * ratTrunc (a / m)

/-- Abstract model of the JS `Math` trigonometric operations used by the
motion integrators. -/
structure Trig where
  sin : ℚ → ℚ
  cos : ℚ → ℚ
  atan2 : ℚ → ℚ → ℚ
  pi : ℚ

/-! ## Classification & styling (part_003, `createJetIcon`/`getColor`) -/

/-- Colour selection from `createJetIcon`'s inner `getColor` in
`src/unnamed/part_003` (lines 510-531): friendly jets get one fixed colour;
enemy jets are bucketed by attribution when present, else by strategic
value. -/
def getColor (friendly : Bool) (attribution : Option ℚ) (strategicValue : ℚ) :
    String :=
  if friendly then "#0080FF"
  else
    match attribution with
    | some a =>
        if a ≥ 4/5 then "#FF0000"
        else if a ≥ 3/5 then "#FF4500"
        else if a ≥ 2/5 then "#FF8C00"
        else "#FFA500"
    | none =>
        if strategicValue ≥ 8 then "#FF3B30"
        else if strategicValue ≥ 6 then "#FF9500"
        else if strategicValue ≥ 4 then "#FFCC00"
        else "#34C759"

/-! ## Entity model generator (part_003, lines 131-293) -/

/-- One entry of the `fighterJetTypes` table. -/
structure JetType where
  type : String
  baseThreat : ℚ
  baseArmament : ℚ
deriving DecidableEq

/-- The `fighterJetTypes` table from `src/unnamed/part_003` lines 131-142. -/
def fighterJetTypes : List JetType :=
  [⟨"SU-57", 9, 8⟩, ⟨"J-20", 8, 7⟩, ⟨"MiG-35", 7, 7⟩, ⟨"SU-35", 8, 8⟩,
   ⟨"J-16", 6, 7⟩, ⟨"J-10C", 6, 6⟩, ⟨"MiG-29", 5, 6⟩, ⟨"SU-30", 7, 7⟩,
   ⟨"JF-17", 4, 5⟩, ⟨"J-7", 3, 4⟩]

/-- The friendly aircraft type names (part_003 lines 77-84). -/
def friendlyAircraftTypes : List String :=
  ["F-35 Lightning II", "F-22 Raptor", "F-15EX Eagle II",
   "F/A-18E Super Hornet", "F-16 Fighting Falcon", "A-10 Thunderbolt II"]

/-- A fighter-jet entity as produced by `createSpecificJet` (part_003).
The `lastUpdated : Date` field is a wall-clock timestamp and is omitted. -/
structure FighterJet where
  id : String
  lat : ℚ
  lng : ℚ
  type : String
  callsign : String
  threatLevel : ℚ
  armamentLevel : ℚ
  strategicValue : ℚ
  altitude : ℚ
  speed : ℚ
  heading : ℚ
  friendly : Bool
  attribution : Option ℚ
deriving DecidableEq

/-- The fixed callsign list from `createSpecificJet` (part_003 lines 260-261). -/
def callsigns : List String :=
  ["EAGLE", "VIPER", "RAPTOR", "THUNDER", "FALCON", "WARTHOG",
   "DRAGON", "FLANKER", "FOXHOUND", "FELON", "FIREBIRD", "FULCRUM"]

/-- `createSpecificJet` from `src/unnamed/part_003` lines 249-285.  `rand`
stands for the single `Math.random()` draw used for the enemy attribution
score. -/
def createSpecificJet (rand : ℚ) (lat lng : ℚ) (jetType : String) (index : ℕ)
    (friendly : Bool) : FighterJet :=
  let jetTypeData :=
    ((fighterJetTypes.find? fun u => u.type == jetType).getD
      (fighterJetTypes.getD 0 ⟨"", 0, 0⟩))
  let strategicValue :=
    min 10 (jetTypeData.baseThreat * (6/10) + jetTypeData.baseArmament * (4/10) + 1)
  let attribution : Option ℚ :=
    if friendly then none
    else some (min 1 (max 0
      (4/10 + (jetTypeData.baseThreat / 10) * (6/10) + rand * (2/10))))
  { id := "jet-" ++ toString index
    lat := lat
    lng := lng
    type := jetType
    callsign := callsigns.getD (index % callsigns.length) ""
    threatLevel := jetTypeData.baseThreat
    armamentLevel := jetTypeData.baseArmament
    strategicValue := strategicValue
    altitude := 25000 + (index : ℚ) * 5000
    speed := 600 + (index : ℚ) * 100
    heading := (index : ℚ) * 30
    friendly := friendly
    attribution := attribution }

/-- `generateBattlefieldData` from `src/unnamed/part_003` lines 145-246: the
source builds a literal list of 12 positions (6 friendly, then 6 enemy) from
the centre and radius and maps `createSpecificJet` over it with the position
index; the `forEach`/push loop is unrolled here.  `rand` supplies the
per-call `Math.random()` draw. -/
def generateBattlefieldData (rand : ℕ → ℚ) (center : ℚ × ℚ) (radius : ℚ) :
    List FighterJet :=
  [createSpecificJet (rand 0) (center.1 + radius * 6) center.2
     "F-35 Lightning II" 0 true,
   createSpecificJet (rand 1) (center.1 + radius * 5) (center.2 + radius * 5)
     "F-22 Raptor" 1 true,
   createSpecificJet (rand 2) center.1 (center.2 + radius * 8)
     "F-15EX Eagle II" 2 true,
   createSpecificJet (rand 3) (center.1 - radius * 5) (center.2 + radius * 5)
     "F/A-18E Super Hornet" 3 true,
   createSpecificJet (rand 4) (center.1 - radius * 10) (center.2 + radius * 2)
     "F-16 Fighting Falcon" 4 true,
   createSpecificJet (rand 5) (center.1 - radius * 12) center.2
     "A-10 Thunderbolt II" 5 true,
   createSpecificJet (rand 6) center.1 (center.2 - radius * 15)
     "J-20" 6 false,
   createSpecificJet (rand 7) (center.1 + radius * 5) (center.2 - radius * 5)
     "Su-57" 7 false,
   createSpecificJet (rand 8) (center.1 + radius * 10) (center.2 - radius * 2)
     "Su-35" 8 false,
   createSpecificJet (rand 9) (center.1 - radius * 5) (center.2 - radius * 5)
     "J-16" 9 false,
   createSpecificJet (rand 10) (center.1 - radius * 10) (center.2 - radius * 2)
     "J-10C" 10 false,
   createSpecificJet (rand 11) (center.1 - radius * 2) (center.2 - radius * 10)
     "MiG-35" 11 false]

/-- The spec's strategic-value formula: `clamp(t*0.6 + a*0.4 + bonus, 1, 10)`,
clamped at both ends.  (Written from the spec's words, for comparison with
the source's `createSpecificJet`, which clamps only the upper end.) -/
def strategicValueSpec (t a bonus : ℚ) : ℚ :=
  max 1 (min 10 (t * (6/10) + a * (4/10) + bonus))

/-! ## Capped forward motion (part_003, `initializeAnimatedPoints` /
`useMovingHeatPoints`, lines 330-470) -/

/-- The per-entity state of the curved-forward motion model
(`AnimatedPoint` in part_003). -/
structure FwdPoint where
  lat : ℚ
  lng : ℚ
  intensity : ℚ
  speed : ℚ
  direction : ℚ
  startLat : ℚ
  startLng : ℚ
  distance : ℚ
  curvature : ℚ
  heading : ℚ
deriving DecidableEq

/-- The input to initialization: a raw point with its allegiance flag and
prior heading (jets carry these fields through the object spread). -/
structure InPoint where
  lat : ℚ
  lng : ℚ
  friendly : Bool
  heading : ℚ
deriving DecidableEq

/-- `initializeAnimatedPoints` for one point (part_003 lines 330-377).
`randDir` and `randCurv` are the two `Math.random()` draws.  The unused
km-to-degree locals of the source are dropped; intensity and speed follow
the friendly/enemy branches exactly. -/
def initFwdPoint (randDir randCurv : ℚ) (p : InPoint) : FwdPoint :=
  let intensity : ℚ := if p.friendly then 7/10 else 4/5
  let speed : ℚ :=
    if p.friendly then ((6/1000 + (2/1000) * intensity) * 30) / 10
    else ((4/1000 + (2/1000) * intensity) * 30) / 10
  { lat := p.lat
    lng := p.lng
    intensity := intensity
    speed := speed
    direction := randDir * 360
    startLat := p.lat
    startLng := p.lng
    distance := 0
    curvature := (randCurv * (2/1000) - 1/1000) * 30
    heading := p.heading }

/-- Initialization over the whole point list, one pair of random draws per
point index. -/
def initFwdPoints (randDir randCurv : ℕ → ℚ) (pts : List InPoint) :
    List FwdPoint :=
  (List.range pts.length).zip pts |>.map
    fun ip => initFwdPoint (randDir ip.1) (randCurv ip.1) ip.2

/-- The `maxTimeSteps` cap of `useMovingHeatPoints` (part_003 line 388). -/
def maxTimeSteps : ℕ := 100

/-- One tick of the curved-forward integrator for one point (part_003 lines
401-460).  `frozen` is the `timeStepRef.current >= maxTimeSteps` test: when
it holds the point is returned unchanged.  Otherwise distance grows by the
speed and the position is recomputed from the start point, the straight-line
direction and the quadratic curvature correction; the heading is the curved
direction in degrees brought into range with `(x + 360) % 360`. -/
def fwdTick (t : Trig) (frozen : Bool) (p : FwdPoint) : FwdPoint :=
  if frozen then p
  else
    let newDistance := p.distance + p.speed
    let directionRad := p.direction * (t.pi / 180)
    let curvedDirectionRad := directionRad + p.curvature * newDistance
    let newLng := p.startLng + t.cos directionRad * newDistance +
      t.sin directionRad * p.curvature * newDistance * newDistance * (1/2)
    let newLat := p.startLat + t.sin directionRad * newDistance -
      t.cos directionRad * p.curvature * newDistance * newDistance * (1/2)
    let heading := jsMod (curvedDirectionRad * (180 / t.pi) + 360) 360
    { p with
        lat := newLat
        lng := newLng
        distance := newDistance
        heading := heading }

/-- The state owned by `useMovingHeatPoints`: the tick counter and the
animated point list. -/
structure FwdState where
  timeStep : ℕ
  points : List FwdPoint
deriving DecidableEq

/-- One invocation of the `setInterval` callback of `useMovingHeatPoints`
(part_003 lines 396-464): the tick counter is incremented first and every
point is advanced (or held, once the incremented counter has reached
`maxTimeSteps`). -/
def fwdStep (t : Trig) (s : FwdState) : FwdState :=
  let ts := s.timeStep + 1
  { timeStep := ts
    points := s.points.map (fwdTick t (decide (maxTimeSteps ≤ ts))) }

/-- The trajectory of the capped-forward integrator from the freshly
initialized state (tick counter `0`). -/
def fwdTraj (t : Trig) (randDir randCurv : ℕ → ℚ) (pts : List InPoint)
    (n : ℕ) : FwdState :=
  (fwdStep t)^[n] { timeStep := 0, points := initFwdPoints randDir randCurv pts }

/-! ## Elliptical motion (HeatMap.tsx, `normalizeAngle` /
`useMovingHeatPoints`, lines 288-351) -/

/-- The per-entity state of the elliptical motion model (`AnimatedPoint` in
HeatMap.tsx). -/
structure EllPoint where
  lat : ℚ
  lng : ℚ
  intensity : ℚ
  radiusX : ℚ
  radiusY : ℚ
  speed : ℚ
  angle : ℚ
  centerLat : ℚ
  centerLng : ℚ
  clockwise : Bool
  heading : ℚ
deriving DecidableEq

/-- `normalizeAngle` from HeatMap.tsx lines 288-290: `angle % (Math.PI * 2)`
with the JS remainder. -/
def normalizeAngle (t : Trig) (angle : ℚ) : ℚ := jsMod angle (t.pi * 2)

/-- One tick of the elliptical integrator for one point (HeatMap.tsx lines
303-341): the angle advances by the signed speed and is normalized, the
position is recomputed on the ellipse, and the heading is the tangent
direction via `atan2`, converted to degrees. -/
def ellTick (t : Trig) (p : EllPoint) : EllPoint :=
  let newAngle :=
    normalizeAngle t (p.angle + (if p.clockwise then 1 else -1) * p.speed)
  let newLat := p.centerLat + p.radiusY * t.sin newAngle
  let newLng := p.centerLng + p.radiusX * t.cos newAngle
  let dx := -p.radiusX * t.sin newAngle * (if p.clockwise then -1 else 1)
  let dy := p.radiusY * t.cos newAngle * (if p.clockwise then -1 else 1)
  let heading := t.atan2 dx dy * (180 / t.pi)
  { p with
      angle := newAngle
      lat := newLat
      lng := newLng
      heading := heading }

/-- The signed direction of angular advance: `+1` clockwise, `-1`
counterclockwise (the `point.clockwise ? 1 : -1` factor of the tick). -/
def ellDir (p : EllPoint) : ℚ := if p.clockwise then 1 else -1

/-- The ellipse-position function implicit in the tick: where a point with
the given centre and radii sits at a given angle. -/
def ellipseLat (t : Trig) (p : EllPoint) (angle : ℚ) : ℚ :=
  p.centerLat + p.radiusY * t.sin angle

/-- Longitude component of the ellipse-position function. -/
def ellipseLng (t : Trig) (p : EllPoint) (angle : ℚ) : ℚ :=
  p.centerLng + p.radiusX * t.cos angle

/-! ## Heat layer renderer (part_003, `HeatMapLayer` effect, lines 591-716) -/

/-- The fields of an animated point that decide which heat layers are built:
allegiance, fighter-jet shape, and the optional attribution score. -/
structure HeatPoint where
  lat : ℚ
  lng : ℚ
  intensity : ℚ
  isJet : Bool
  friendly : Bool
  attribution : Option ℚ
deriving DecidableEq

/-- A layer attached to the Leaflet map: either a heat overlay created on a
given tick cycle (kind 0 = friendly, 1 = enemy, 2 = attribution) or some
other layer (tiles, markers). -/
inductive MapLayer where
  | heat (cycle : ℕ) (kind : ℕ)
  | base (id : ℕ)
deriving DecidableEq

/-- The `layer instanceof L.HeatLayer` test of the effect cleanup. -/
def isHeatLayer : MapLayer → Bool
  | .heat _ _ => true
  | .base _ => false

/-- The friendly point partition of the effect (part_003 lines 603-646). -/
def friendlyPts (pts : List HeatPoint) : List HeatPoint :=
  pts.filter fun p => p.friendly

/-- The enemy point partition of the effect. -/
def enemyPts (pts : List HeatPoint) : List HeatPoint :=
  pts.filter fun p => !p.friendly

/-- The attribution partition: enemy fighter jets carrying an attribution
score (part_003 lines 621-628). -/
def attributionPts (pts : List HeatPoint) : List HeatPoint :=
  pts.filter fun p => p.isJet && !p.friendly && p.attribution.isSome

/-- The effect body (part_003 lines 649-700): one heat overlay per nonempty
partition is created and added to the map, tagged with the current cycle. -/
def addHeatLayers (cycle : ℕ) (pts : List HeatPoint) (m : List MapLayer) :
    List MapLayer :=
  let m1 := if (friendlyPts pts).length > 0 then m ++ [.heat cycle 0] else m
  let m2 := if (enemyPts pts).length > 0 then m1 ++ [.heat cycle 1] else m1
  if (attributionPts pts).length > 0 then m2 ++ [.heat cycle 2] else m2

/-- The effect cleanup (part_003 lines 705-712): every `L.HeatLayer`
instance on the map is removed; other layers are untouched. -/
def cleanupHeatLayers (m : List MapLayer) : List MapLayer :=
  m.filter fun l => !isHeatLayer l

/-- One re-render cycle: React runs the previous effect's cleanup before the
new effect body, so the cycle is cleanup followed by layer creation. -/
def renderCycle (pts : List HeatPoint) (cycle : ℕ) (m : List MapLayer) :
    List MapLayer :=
  addHeatLayers cycle pts (cleanupHeatLayers m)

/-- `n` successive re-render cycles (cycle numbers `1..n`) starting from an
arbitrary map layer list. -/
def renderRun (pts : List HeatPoint) : ℕ → List MapLayer → List MapLayer
  | 0, m => m
  | n + 1, m => renderCycle pts (n + 1) (renderRun pts n m)

/-- The number of heat overlays attached to the map. -/
def heatCount (m : List MapLayer) : ℕ := m.countP fun l => isHeatLayer l

/-- The number of heat overlays one effect invocation creates: one per
nonempty partition. -/
def layerTotal (pts : List HeatPoint) : ℕ :=
  (if (friendlyPts pts).length > 0 then 1 else 0) +
  (if (enemyPts pts).length > 0 then 1 else 0) +
  (if (attributionPts pts).length > 0 then 1 else 0)

/-! ## Concrete instances used by witnesses and counterexamples -/

/-- A degenerate trig instance (used where the analytic behaviour of the
trig functions is irrelevant). -/
def trigConst : Trig :=
  { sin := fun _ => 0, cos := fun _ => 0, atan2 := fun _ _ => 0, pi := 3 }

/-- The exact rational value of the IEEE-754 double `Math.PI`. -/
def jsPi : ℚ := 884279719003555 / 281474976710656

/-- A trig instance with the JS value of pi (trig values irrelevant). -/
def trigJs : Trig :=
  { sin := fun _ => 0, cos := fun _ => 0, atan2 := fun _ _ => 0, pi := jsPi }

/-- The value of `Math.sin 1` (shortest round-tripping decimal of the
IEEE-754 double). -/
def sinOne : ℚ := 8414709848078965/10000000000000000

/-- The value of `Math.cos 1` (shortest round-tripping decimal of the
IEEE-754 double). -/
def cosOne : ℚ := 5403023058681398/10000000000000000

/-- A trig instance faithful to the JS `Math` functions at every argument
the C6 counterexample evaluates: the only angle fed to `sin`/`cos` is
exactly `1` radian, where `Math.sin 1 = 0.8414709848078965` and
`Math.cos 1 = 0.5403023058681398`; the only arguments fed to `atan2` are
`(-sin 1, cos 1)`, a point at polar angle exactly `-1` radian, where
`Math.atan2` returns `-1` (a negative first argument always yields a value
in `(-pi, 0)`).  `atan2` respects the real range `(-pi, pi]` everywhere. -/
def trigC6 : Trig :=
  { sin := fun x => if x = 1 then sinOne else 0
    cos := fun x => if x = 1 then cosOne else 0
    atan2 := fun y _ => if y < 0 then -1 else 1
    pi := jsPi }

/-- A counterclockwise elliptical point on the unit circle whose stored
angle is `1.01` rad, so that one tick (subtracting the angular speed `0.01`)
moves it to exactly `1` radian. -/
def ellC6 : EllPoint :=
  { lat := 0, lng := 0, intensity := 1, radiusX := 1, radiusY := 1,
    speed := 1/100, angle := 101/100, centerLat := 0, centerLng := 0,
    clockwise := false, heading := 0 }

/-- A counterclockwise elliptical point whose stored angle is smaller than
its angular speed. -/
def ccwPoint : EllPoint :=
  { lat := 0, lng := 0, intensity := 1, radiusX := 1, radiusY := 1,
    speed := 1/100, angle := 1/200, centerLat := 0, centerLng := 0,
    clockwise := false, heading := 0 }

/-- A concrete elliptical point for the full-revolution witness: with
angular speed `3` and `trigConst.pi * 2 = 6`, two ticks make one full
revolution. -/
def ellW : EllPoint :=
  { lat := 5, lng := 5, intensity := 1, radiusX := 1, radiusY := 2,
    speed := 3, angle := 1, centerLat := 10, centerLng := 20,
    clockwise := true, heading := 0 }

/-- A concrete forward-motion point for the heading-range witness. -/
def fwdW : FwdPoint :=
  { lat := 0, lng := 0, intensity := 1, speed := 1, direction := 0,
    startLat := 0, startLng := 0, distance := 0, curvature := 0,
    heading := 0 }

/-- A concrete heat point (an enemy jet with an attribution score) for the
heat-layer witness. -/
def hpW : HeatPoint :=
  { lat := 0, lng := 0, intensity := 1, isJet := true, friendly := false,
    attribution := some (9/10) }

/-! ## Arithmetic lemmas for the JS remainder and periodicity -/

/-- `jsMod` stays in `[0, m)` for a nonnegative dividend and positive modulus. -/
lemma jsMod_nonneg_lt (a m : ℚ) (ha : 0 ≤ a) (hm : 0 < m) :
    0 ≤ jsMod a m ∧ jsMod a m < m := by
  have hq : (0 : ℚ) ≤ a / m := div_nonneg ha hm.le
  have htr : ratTrunc (a / m) = ⌊a / m⌋ := by simp [ratTrunc, hq]
  have hfr : jsMod a m = m * Int.fract (a / m) := by
    rw [jsMod, htr, Int.fract]
    field_simp
  constructor
  · rw [hfr]
    exact mul_nonneg hm.le (Int.fract_nonneg _)
  · rw [hfr]
    calc m * Int.fract (a / m) < m * 1 :=
          (mul_lt_mul_left hm).mpr (Int.fract_lt_one _)
    _ = m := mul_one m

/-- `jsMod a m` differs from `a` by an integer multiple of `m`. -/
lemma jsMod_sub_int_mul (a m : ℚ) : ∃ k : ℤ, jsMod a m = a - (k : ℚ) * m := by
  exact ⟨ratTrunc (a / m), by rw [jsMod]; ring⟩

/-- A function satisfying the one-period law is invariant under shifting by
any integer multiple of the period. -/
lemma periodic_int_mul (f : ℚ → ℚ) (c : ℚ) (h : ∀ x, f (x + c) = f x) :
    ∀ (k : ℤ) (x : ℚ), f (x + (k : ℚ) * c) = f x := by
  intro k
  induction k using Int.induction_on with
  | hz => intro x; simp
  | hp n ih =>
      intro x
      have h1 : x + ((n : ℤ) + 1 : ℤ) * c = (x + (n : ℤ) * c) + c := by
        push_cast; ring
      rw [h1, h, ih]
  | hn n ih =>
      intro x
      have h1 : x + (-(n : ℤ) - 1 : ℤ) * c + c = x + (-(n : ℤ) : ℤ) * c := by
        push_cast; ring
      have h2 := h (x + (-(n : ℤ) - 1 : ℤ) * c)
      rw [h1] at h2
      rw [← h2]
      exact ih x

/-! ## C7: friendly colour invariance -/

/-- C7: the classification function maps every friendly entity to the single
fixed colour `#0080FF`, regardless of its attribution or strategic value;
any two friendly entities receive the same colour. -/
theorem friendly_color_fixed (a1 a2 : Option ℚ) (sv1 sv2 : ℚ) :
    getColor true a1 sv1 = "#0080FF" ∧
    getColor true a1 sv1 = getColor true a2 sv2 := by
  constructor <;> simp [getColor]

/-! ## C2: enemy colour buckets -/

/-- C2: for enemy entities, attribution (when present) selects the colour
bucket with exact boundaries at 0.8, 0.6, 0.4; when attribution is absent
the strategic value selects the bucket with exact boundaries at 8, 6, 4. -/
theorem enemy_color_buckets (a sv : ℚ) :
    (4/5 ≤ a → getColor false (some a) sv = "#FF0000") ∧
    (3/5 ≤ a → a < 4/5 → getColor false (some a) sv = "#FF4500") ∧
    (2/5 ≤ a → a < 3/5 → getColor false (some a) sv = "#FF8C00") ∧
    (a < 2/5 → getColor false (some a) sv = "#FFA500") ∧
    (8 ≤ sv → getColor false none sv = "#FF3B30") ∧
    (6 ≤ sv → sv < 8 → getColor false none sv = "#FF9500") ∧
    (4 ≤ sv → sv < 6 → getColor false none sv = "#FFCC00") ∧
    (sv < 4 → getColor false none sv = "#34C759") := by
  refine ⟨?_, ?_, ?_, ?_, ?_, ?_, ?_, ?_⟩ <;>
    · intros
      simp only [getColor, Bool.false_eq_true, if_false]
      split_ifs <;> first | rfl | (exfalso; linarith)

/-- Witness for C2: each of the eight buckets evaluated at a concrete
boundary or interior value. -/
theorem enemy_color_buckets_witness :
    ((4:ℚ)/5 ≤ 4/5 ∧ getColor false (some (4/5)) 0 = "#FF0000") ∧
    ((3:ℚ)/5 ≤ 3/5 ∧ (3:ℚ)/5 < 4/5 ∧ getColor false (some (3/5)) 0 = "#FF4500") ∧
    ((2:ℚ)/5 ≤ 2/5 ∧ (2:ℚ)/5 < 3/5 ∧ getColor false (some (2/5)) 0 = "#FF8C00") ∧
    ((0:ℚ) < 2/5 ∧ getColor false (some 0) 0 = "#FFA500") ∧
    ((8:ℚ) ≤ 8 ∧ getColor false none 8 = "#FF3B30") ∧
    ((6:ℚ) ≤ 6 ∧ (6:ℚ) < 8 ∧ getColor false none 6 = "#FF9500") ∧
    ((4:ℚ) ≤ 4 ∧ (4:ℚ) < 6 ∧ getColor false none 4 = "#FFCC00") ∧
    ((0:ℚ) < 4 ∧ getColor false none 0 = "#34C759") :=
  ⟨⟨by norm_num, (enemy_color_buckets (4/5) 0).1 (by norm_num)⟩,
   ⟨by norm_num, by norm_num,
    (enemy_color_buckets (3/5) 0).2.1 (by norm_num) (by norm_num)⟩,
   ⟨by norm_num, by norm_num,
    (enemy_color_buckets (2/5) 0).2.2.1 (by norm_num) (by norm_num)⟩,
   ⟨by norm_num, (enemy_color_buckets 0 0).2.2.2.1 (by norm_num)⟩,
   ⟨by norm_num, (enemy_color_buckets 0 8).2.2.2.2.1 (by norm_num)⟩,
   ⟨by norm_num, by norm_num,
    (enemy_color_buckets 0 6).2.2.2.2.2.1 (by norm_num) (by norm_num)⟩,
   ⟨by norm_num, by norm_num,
    (enemy_color_buckets 0 4).2.2.2.2.2.2.1 (by norm_num) (by norm_num)⟩,
   ⟨by norm_num, (enemy_color_buckets 0 0).2.2.2.2.2.2.2 (by norm_num)⟩⟩

/-! ## C8: the deterministic 12-position generator -/

/-- C8: for any random draws, the generator at the Taiwan Straits scenario
centre returns exactly 12 entities, 6 friendly and 6 enemy, with call signs
assigned in order from the fixed callsign list. -/
theorem taiwan_scenario_generation (rand : ℕ → ℚ) :
    (generateBattlefieldData rand (25047/1000, 121532/1000) (6/100)).length = 12 ∧
    ((generateBattlefieldData rand (25047/1000, 121532/1000) (6/100)).filter
        fun j => j.friendly).length = 6 ∧
    ((generateBattlefieldData rand (25047/1000, 121532/1000) (6/100)).filter
        fun j => !j.friendly).length = 6 ∧
    (generateBattlefieldData rand (25047/1000, 121532/1000) (6/100)).map
        (fun j => j.callsign) = callsigns :=
  ⟨rfl, rfl, rfl, rfl⟩

/-! ## C3: strategic value derivation -/

/-- The table lookup for the J-20 type succeeds with base threat 8 and base
armament 7. -/
lemma find_j20 : fighterJetTypes.find? (fun u => u.type == "J-20") =
    some ⟨"J-20", 8, 7⟩ := by decide

/-- C3 counterexample: the generator's J-20 (an ordinary enemy entity, with
no high-value designation anywhere in the code) has strategic value 8.6,
not `clamp(8*0.6 + 7*0.4 + 0, 1, 10) = 7.6`: the source adds the bonus of 1
to every entity, not only to designated high-value ones. -/
theorem strategic_value_bonus_counterexample :
    ∃ jet ∈ generateBattlefieldData (fun _ => 0) (25047/1000, 121532/1000) (6/100),
      jet.strategicValue ≠
        strategicValueSpec jet.threatLevel jet.armamentLevel 0 := by
  refine ⟨createSpecificJet 0 (25047/1000) (121532/1000 - (6/100) * 15) "J-20" 6 false,
    ?_, ?_⟩
  · simp only [generateBattlefieldData, List.mem_cons]
    norm_num
  · simp only [createSpecificJet, find_j20, Option.getD_some]
    norm_num [strategicValueSpec, min_def, max_def]

/-- The looked-up jet type record is always a member of the table (the
`find?` result when the lookup succeeds, the table's first entry when it
falls back). -/
lemma jetTypeData_mem (ty : String) :
    ((fighterJetTypes.find? fun u => u.type == ty).getD
      (fighterJetTypes.getD 0 ⟨"", 0, 0⟩)) ∈ fighterJetTypes := by
  cases hfind : fighterJetTypes.find? fun u => u.type == ty with
  | none => simp [hfind]; decide
  | some v =>
      simp [hfind]
      exact List.mem_of_find?_eq_some hfind

/-- Over every entry of the type table, the upper-clamped strategic value is
already at least 1, hence agrees with the two-sided clamp. -/
lemma table_sv_bounds :
    ∀ v ∈ fighterJetTypes,
      1 ≤ min 10 (v.baseThreat * (6/10) + v.baseArmament * (4/10) + 1) ∧
      min 10 (v.baseThreat * (6/10) + v.baseArmament * (4/10) + 1) ≤ 10 ∧
      min 10 (v.baseThreat * (6/10) + v.baseArmament * (4/10) + 1) =
        max 1 (min 10 (v.baseThreat * (6/10) + v.baseArmament * (4/10) + 1)) := by
  intro v hv
  fin_cases hv <;>
    exact ⟨by norm_num [min_def], by norm_num [min_def],
      by norm_num [min_def, max_def]⟩

/-- The strategic value of any jet built by `createSpecificJet` is the
upper-clamped weighted sum with constant bonus 1, agrees with the two-sided
clamp, and lies in `[1, 10]`. -/
lemma createSpecificJet_sv (rand lat lng : ℚ) (ty : String) (i : ℕ) (fr : Bool) :
    (createSpecificJet rand lat lng ty i fr).strategicValue =
      min 10 ((createSpecificJet rand lat lng ty i fr).threatLevel * (6/10) +
        (createSpecificJet rand lat lng ty i fr).armamentLevel * (4/10) + 1) ∧
    (createSpecificJet rand lat lng ty i fr).strategicValue =
      strategicValueSpec (createSpecificJet rand lat lng ty i fr).threatLevel
        (createSpecificJet rand lat lng ty i fr).armamentLevel 1 ∧
    1 ≤ (createSpecificJet rand lat lng ty i fr).strategicValue ∧
    (createSpecificJet rand lat lng ty i fr).strategicValue ≤ 10 := by
  have hmem := jetTypeData_mem ty
  have hb := table_sv_bounds _ hmem
  refine ⟨rfl, ?_, hb.1, hb.2.1⟩
  show min 10 _ = strategicValueSpec _ _ 1
  rw [strategicValueSpec]
  exact hb.2.2

/-- C3 (amended): every entity produced by the 12-position generator has
`strategicValue = min(10, threatLevel*0.6 + armamentLevel*0.4 + 1)` — the
bonus of 1 is added for every entity and only the upper end is explicitly
clamped — and since every table entry keeps the sum at least 4.4 the value
also equals the two-sided clamp and lies in `[1, 10]`. -/
theorem strategic_value_derivation (rand : ℕ → ℚ) (c : ℚ × ℚ) (r : ℚ)
    (jet : FighterJet) (h : jet ∈ generateBattlefieldData rand c r) :
    jet.strategicValue =
      min 10 (jet.threatLevel * (6/10) + jet.armamentLevel * (4/10) + 1) ∧
    jet.strategicValue = strategicValueSpec jet.threatLevel jet.armamentLevel 1 ∧
    1 ≤ jet.strategicValue ∧ jet.strategicValue ≤ 10 := by
  simp only [generateBattlefieldData, List.mem_cons, List.not_mem_nil, or_false] at h
  rcases h with rfl|rfl|rfl|rfl|rfl|rfl|rfl|rfl|rfl|rfl|rfl|rfl <;>
    exact createSpecificJet_sv ..

/-- Witness for C3's amended theorem, at the generator's first entity. -/
theorem strategic_value_derivation_witness :
    createSpecificJet 0 ((0:ℚ) + 1 * 6) 0 "F-35 Lightning II" 0 true ∈
      generateBattlefieldData (fun _ => 0) ((0:ℚ), (0:ℚ)) 1 ∧
    1 ≤ (createSpecificJet 0 ((0:ℚ) + 1 * 6) 0 "F-35 Lightning II" 0 true).strategicValue ∧
    (createSpecificJet 0 ((0:ℚ) + 1 * 6) 0 "F-35 Lightning II" 0 true).strategicValue ≤ 10 := by
  have hmem : createSpecificJet 0 ((0:ℚ) + 1 * 6) 0 "F-35 Lightning II" 0 true ∈
      generateBattlefieldData (fun _ => 0) ((0:ℚ), (0:ℚ)) 1 := by
    simp only [generateBattlefieldData]
    exact List.mem_cons_self _ _
  exact ⟨hmem, (strategic_value_derivation _ _ _ _ hmem).2.2.1,
    (strategic_value_derivation _ _ _ _ hmem).2.2.2⟩

/-! ## C10: the silent fallback for unknown jet types -/

/-- C10: none of the friendly aircraft type strings occurs in the (enemy
only) `fighterJetTypes` table; a failed lookup silently falls back to the
table's first entry (SU-57, base threat 9, base armament 8); consequently
every friendly jet produced by the 12-position generator has threat level 9,
armament level 8 and strategic value 9.6. -/
theorem friendly_fallback :
    (∀ ty ∈ friendlyAircraftTypes,
        fighterJetTypes.find? (fun u => u.type == ty) = none) ∧
    (∀ (rand lat lng : ℚ) (ty : String) (i : ℕ) (fr : Bool),
        fighterJetTypes.find? (fun u => u.type == ty) = none →
        (createSpecificJet rand lat lng ty i fr).threatLevel = 9 ∧
        (createSpecificJet rand lat lng ty i fr).armamentLevel = 8) ∧
    (∀ (rand : ℕ → ℚ) (c : ℚ × ℚ) (r : ℚ) (jet : FighterJet),
        jet ∈ generateBattlefieldData rand c r → jet.friendly = true →
        jet.threatLevel = 9 ∧ jet.armamentLevel = 8 ∧
        jet.strategicValue = 48/5) := by
  refine ⟨by decide, ?_, ?_⟩
  · intro rand lat lng ty i fr h
    simp only [createSpecificJet, h, Option.getD_none]
    exact ⟨rfl, rfl⟩
  · intro rand c r jet h hfr
    simp only [generateBattlefieldData, List.mem_cons, List.not_mem_nil, or_false] at h
    rcases h with rfl|rfl|rfl|rfl|rfl|rfl|rfl|rfl|rfl|rfl|rfl|rfl <;>
      first
      | (refine ⟨rfl, rfl, ?_⟩
         show min 10 ((9:ℚ) * (6/10) + 8 * (4/10) + 1) = 48/5
         norm_num [min_def])
      | simp [createSpecificJet] at hfr

/-- Witness for C10, at the generator's first (friendly, F-35) entity. -/
theorem friendly_fallback_witness :
    createSpecificJet 0 ((0:ℚ) + 1 * 6) 0 "F-35 Lightning II" 0 true ∈
      generateBattlefieldData (fun _ => 0) ((0:ℚ), (0:ℚ)) 1 ∧
    (createSpecificJet 0 ((0:ℚ) + 1 * 6) 0 "F-35 Lightning II" 0 true).friendly = true ∧
    (createSpecificJet 0 ((0:ℚ) + 1 * 6) 0 "F-35 Lightning II" 0 true).threatLevel = 9 ∧
    (createSpecificJet 0 ((0:ℚ) + 1 * 6) 0 "F-35 Lightning II" 0 true).strategicValue = 48/5 := by
  have hmem : createSpecificJet 0 ((0:ℚ) + 1 * 6) 0 "F-35 Lightning II" 0 true ∈
      generateBattlefieldData (fun _ => 0) ((0:ℚ), (0:ℚ)) 1 := by
    simp only [generateBattlefieldData]
    exact List.mem_cons_self _ _
  exact ⟨hmem, rfl, (friendly_fallback.2.2 _ _ _ _ hmem rfl).1,
    (friendly_fallback.2.2 _ _ _ _ hmem rfl).2.2⟩

/-! ## C9: heat layer replacement without accumulation -/

/-- Layers surviving the effect cleanup are never heat layers. -/
lemma cleanup_no_heat (m : List MapLayer) (l : MapLayer)
    (h : l ∈ cleanupHeatLayers m) : isHeatLayer l = false := by
  simp only [cleanupHeatLayers, List.mem_filter, Bool.not_eq_true'] at h
  exact h.2

/-- The effect cleanup leaves no heat layers attached. -/
lemma cleanup_heatCount (m : List MapLayer) :
    heatCount (cleanupHeatLayers m) = 0 := by
  simp only [heatCount, List.countP_eq_zero]
  intro a ha
  simp [cleanup_no_heat m a ha]

/-- Membership through a conditional single-layer append. -/
lemma mem_ite_append (cond : Prop) [Decidable cond] (m : List MapLayer)
    (x l : MapLayer) (h : l ∈ if cond then m ++ [x] else m) : l ∈ m ∨ l = x := by
  split_ifs at h
  · simpa [List.mem_append] using h
  · exact Or.inl h

/-- Every layer present after the effect body was either already on the map
or is one of the at most three heat overlays created for this cycle. -/
lemma mem_addHeatLayers (c : ℕ) (pts : List HeatPoint) (m : List MapLayer)
    (l : MapLayer) (hl : l ∈ addHeatLayers c pts m) :
    l ∈ m ∨ ∃ k, l = MapLayer.heat c k := by
  simp only [addHeatLayers] at hl
  rcases mem_ite_append _ _ _ _ hl with h2 | rfl
  · rcases mem_ite_append _ _ _ _ h2 with h1 | rfl
    · rcases mem_ite_append _ _ _ _ h1 with h0 | rfl
      · exact Or.inl h0
      · exact Or.inr ⟨0, rfl⟩
    · exact Or.inr ⟨1, rfl⟩
  · exact Or.inr ⟨2, rfl⟩

/-- After a full render cycle, every heat layer on the map carries the
current cycle tag. -/
lemma renderCycle_tags (pts : List HeatPoint) (c : ℕ) (m : List MapLayer)
    (l : MapLayer) (hl : l ∈ renderCycle pts c m)
    (hheat : isHeatLayer l = true) : ∃ k, l = MapLayer.heat c k := by
  rcases mem_addHeatLayers c pts (cleanupHeatLayers m) l hl with h | h
  · rw [cleanup_no_heat m l h] at hheat
    cases hheat
  · exact h

/-- A render cycle leaves exactly one heat overlay per nonempty partition,
whatever was attached before. -/
lemma renderCycle_heatCount (pts : List HeatPoint) (c : ℕ) (m : List MapLayer) :
    heatCount (renderCycle pts c m) = layerTotal pts := by
  have h0 := cleanup_heatCount m
  simp only [renderCycle, addHeatLayers, layerTotal]
  simp only [heatCount] at h0 ⊢
  split_ifs <;>
    simp [List.countP_append, h0, List.countP_cons, isHeatLayer] <;>
    exact fun a ha => cleanup_no_heat m a ha

/-- C9: after the `n`-th re-render cycle every heat overlay attached to the
map was created on that cycle (all of cycle `n-1`'s overlays were removed
before cycle `n`'s were added), and the number of attached heat overlays is
the same after every cycle — bounded by 3, with no accumulation across
ticks. -/
theorem heat_layer_no_accumulation (pts : List HeatPoint) (m : List MapLayer)
    (n : ℕ) (hn : 1 ≤ n) :
    (∀ l ∈ renderRun pts n m, isHeatLayer l = true → ∃ k, l = MapLayer.heat n k) ∧
    heatCount (renderRun pts n m) = heatCount (renderRun pts 1 m) ∧
    heatCount (renderRun pts n m) ≤ 3 := by
  obtain ⟨j, rfl⟩ : ∃ j, n = j + 1 := ⟨n - 1, by omega⟩
  refine ⟨?_, ?_, ?_⟩
  · intro l hl hheat
    exact renderCycle_tags pts (j + 1) (renderRun pts j m) l hl hheat
  · show heatCount (renderCycle pts (j + 1) (renderRun pts j m)) =
      heatCount (renderCycle pts 1 (renderRun pts 0 m))
    rw [renderCycle_heatCount, renderCycle_heatCount]
  · show heatCount (renderCycle pts (j + 1) (renderRun pts j m)) ≤ 3
    rw [renderCycle_heatCount]
    simp only [layerTotal]
    split_ifs <;> omega

/-- Witness for C9: fifty simulated render cycles over one enemy jet with an
attribution score leave as many heat overlays as one cycle does. -/
theorem heat_layer_no_accumulation_witness :
    (1 : ℕ) ≤ 50 ∧
    heatCount (renderRun [hpW] 50 [MapLayer.base 0]) =
      heatCount (renderRun [hpW] 1 [MapLayer.base 0]) ∧
    heatCount (renderRun [hpW] 50 [MapLayer.base 0]) ≤ 3 :=
  ⟨by decide,
   (heat_layer_no_accumulation [hpW] [MapLayer.base 0] 50 (by decide)).2.1,
   (heat_layer_no_accumulation [hpW] [MapLayer.base 0] 50 (by decide)).2.2⟩

/-! ## C1: capped forward motion is monotone and freezes -/

/-- One tick never changes a point's speed. -/
lemma fwdTick_speed (t : Trig) (b : Bool) (p : FwdPoint) :
    (fwdTick t b p).speed = p.speed := by
  rcases b <;> simp [fwdTick]

/-- One tick never decreases a point's cumulative distance when its speed is
nonnegative. -/
lemma fwdTick_distance_le (t : Trig) (b : Bool) (p : FwdPoint)
    (h : 0 ≤ p.speed) : p.distance ≤ (fwdTick t b p).distance := by
  rcases b
  · simp only [fwdTick]
    simp only [Bool.false_eq_true, if_false]
    linarith
  · simp [fwdTick]

/-- Initialization gives every point a nonnegative (in fact positive)
forward speed. -/
lemma initFwdPoint_speed_nonneg (rd rc : ℚ) (p : InPoint) :
    0 ≤ (initFwdPoint rd rc p).speed := by
  simp only [initFwdPoint]
  split_ifs <;> norm_num

/-- The tick counter of the trajectory equals the number of elapsed ticks. -/
lemma fwdTraj_timeStep (t : Trig) (rd rc : ℕ → ℚ) (pts : List InPoint) :
    ∀ n, (fwdTraj t rd rc pts n).timeStep = n := by
  intro n
  induction n with
  | zero => rfl
  | succ k ih =>
      rw [fwdTraj, Function.iterate_succ_apply']
      show (fwdStep t (fwdTraj t rd rc pts k)).timeStep = k + 1
      simp [fwdStep, ih]

/-- Every point of the trajectory keeps a nonnegative speed. -/
lemma fwdTraj_speed_nonneg (t : Trig) (rd rc : ℕ → ℚ) (pts : List InPoint) :
    ∀ n, ∀ p ∈ (fwdTraj t rd rc pts n).points, 0 ≤ p.speed := by
  intro n
  induction n with
  | zero =>
      intro p hp
      simp only [fwdTraj, Function.iterate_zero_apply, initFwdPoints,
        List.mem_map] at hp
      obtain ⟨ip, _, rfl⟩ := hp
      exact initFwdPoint_speed_nonneg _ _ _
  | succ k ih =>
      intro p hp
      rw [fwdTraj, Function.iterate_succ_apply'] at hp
      simp only [fwdStep, List.mem_map] at hp
      obtain ⟨q, hq, rfl⟩ := hp
      rw [fwdTick_speed]
      exact ih q hq

/-- A list is pointwise related to its image under a map whenever every
element is related to its own image. -/
lemma forall2_self_map {α : Type} (R : α → α → Prop) (f : α → α) :
    ∀ l : List α, (∀ x ∈ l, R x (f x)) → List.Forall₂ R l (l.map f) := by
  intro l
  induction l with
  | nil => intro _; simp
  | cons a l ih =>
      intro h
      simp only [List.map_cons]
      exact List.Forall₂.cons (h a (List.mem_cons_self a l))
        (ih fun x hx => h x (List.mem_cons_of_mem a hx))

/-- Once 99 ticks have elapsed, the next tick leaves every point unchanged:
the incremented counter reaches `maxTimeSteps` and the frozen branch
returns each point as is. -/
lemma fwdTraj_freeze_succ (t : Trig) (rd rc : ℕ → ℚ) (pts : List InPoint)
    (k : ℕ) (hk : 99 ≤ k) :
    (fwdTraj t rd rc pts (k + 1)).points = (fwdTraj t rd rc pts k).points := by
  rw [fwdTraj, Function.iterate_succ_apply']
  show (fwdStep t (fwdTraj t rd rc pts k)).points = _
  simp only [fwdStep]
  rw [fwdTraj_timeStep t rd rc pts k]
  have hd : decide (maxTimeSteps ≤ k + 1) = true :=
    decide_eq_true (by simp only [maxTimeSteps]; omega)
  rw [hd]
  have hid : ∀ q : FwdPoint, fwdTick t true q = q := fun q => by simp [fwdTick]
  rw [show fwdTick t true = id from funext hid, List.map_id]

/-- The point list is constant on the whole tail of the trajectory after 99
ticks. -/
lemma fwdTraj_freeze (t : Trig) (rd rc : ℕ → ℚ) (pts : List InPoint)
    (m n : ℕ) (hm : 99 ≤ m) (hmn : m ≤ n) :
    (fwdTraj t rd rc pts n).points = (fwdTraj t rd rc pts m).points := by
  induction n with
  | zero => omega
  | succ k ih =>
      rcases Nat.eq_or_lt_of_le hmn with rfl | hlt
      · rfl
      · have hk : m ≤ k := by omega
        rw [fwdTraj_freeze_succ t rd rc pts k (by omega)]
        exact ih hk

/-- C1: along the capped-forward trajectory of any initialized entity set,
the cumulative distance of every entity is non-decreasing from each tick to
the next; and once the tick counter has reached the cap of 100 (that is,
from trajectory index 99 on, since motion is already frozen on the tick
that raises the counter to 100), the whole point list — distance, latitude
and longitude included — never changes again. -/
theorem capped_forward_distance_monotone_freeze (t : Trig) (rd rc : ℕ → ℚ)
    (pts : List InPoint) :
    (∀ n : ℕ, List.Forall₂ (fun p q => p.distance ≤ q.distance)
        (fwdTraj t rd rc pts n).points (fwdTraj t rd rc pts (n + 1)).points) ∧
    (∀ m n : ℕ, 99 ≤ m → m ≤ n →
        (fwdTraj t rd rc pts n).points = (fwdTraj t rd rc pts m).points) := by
  constructor
  · intro n
    have hstep : (fwdTraj t rd rc pts (n + 1)).points =
        (fwdTraj t rd rc pts n).points.map
          (fwdTick t (decide (maxTimeSteps ≤ (fwdTraj t rd rc pts n).timeStep + 1))) := by
      rw [fwdTraj, Function.iterate_succ_apply']
      rfl
    rw [hstep]
    exact forall2_self_map _ _ _
      (fun p hp => fwdTick_distance_le _ _ _ (fwdTraj_speed_nonneg t rd rc pts n p hp))
  · exact fun m n hm hmn => fwdTraj_freeze t rd rc pts m n hm hmn

/-- Witness for C1: a one-entity trajectory is unchanged between ticks 99
and 100. -/
theorem capped_forward_distance_monotone_freeze_witness :
    (99 : ℕ) ≤ 99 ∧ (99 : ℕ) ≤ 100 ∧
    (fwdTraj trigConst (fun _ => 0) (fun _ => 0) [⟨0, 0, true, 0⟩] 100).points =
      (fwdTraj trigConst (fun _ => 0) (fun _ => 0) [⟨0, 0, true, 0⟩] 99).points :=
  ⟨by decide, by decide,
   (capped_forward_distance_monotone_freeze trigConst (fun _ => 0) (fun _ => 0)
      [⟨0, 0, true, 0⟩]).2 99 100 (by decide) (by decide)⟩

/-! ## C5: angle normalization under counterclockwise rotation -/

/-- C5: `normalizeAngle` contradicts its own comment ("keep angle in 0-2π
range"): for a counterclockwise point whose stored angle (inside `[0, 2π)`)
is smaller than its angular speed, the tick stores a negative angle, because
the JS `%` operator keeps the dividend's sign.  Evaluated at the concrete
failing input: angle 0.005, speed 0.01, counterclockwise. -/
theorem angle_normalization_failure :
    ccwPoint.clockwise = false ∧
    (0 ≤ ccwPoint.angle ∧ ccwPoint.angle < trigJs.pi * 2) ∧
    (ellTick trigJs ccwPoint).angle = -(1/200) ∧
    ¬ (0 ≤ (ellTick trigJs ccwPoint).angle) := by
  have heq : (ellTick trigJs ccwPoint).angle = -(1/200) := by
    show normalizeAngle trigJs (ccwPoint.angle + (-1) * ccwPoint.speed) = -(1/200)
    norm_num [normalizeAngle, jsMod, ratTrunc, ccwPoint, trigJs, jsPi]
  refine ⟨rfl, ⟨by norm_num [ccwPoint], by norm_num [ccwPoint, trigJs, jsPi]⟩, heq, ?_⟩
  rw [heq]
  norm_num

/-! ## C6: heading ranges of the two motion models -/

/-- Scaling a value in `(-pi, pi]` by `180 / pi` lands in `(-180, 180]`. -/
lemma atan2_deg_range (t : Trig) (hpi : 0 < t.pi) (v : ℚ)
    (hv1 : -t.pi < v) (hv2 : v ≤ t.pi) :
    -180 < v * (180 / t.pi) ∧ v * (180 / t.pi) ≤ 180 := by
  have hpos : 0 < 180 / t.pi := by positivity
  constructor
  · calc (-180 : ℚ) = -t.pi * (180 / t.pi) := by field_simp; ring
    _ < v * (180 / t.pi) := mul_lt_mul_of_pos_right hv1 hpos
  · calc v * (180 / t.pi) ≤ t.pi * (180 / t.pi) :=
        mul_le_mul_of_nonneg_right hv2 hpos.le
    _ = 180 := by field_simp

/-- C6 counterexample: under the elliptical model the recomputed heading is
`atan2(dx, dy) * 180 / pi` and is never re-normalized.  Traced at a real
input: a counterclockwise unit-circle point with stored angle `1.01` rad and
speed `0.01` has new angle exactly `1` rad after one tick, so
`dx = -sin 1 < 0`, `dy = cos 1 > 0`, and `Math.atan2(-sin 1, cos 1) = -1`
(the point `(cos 1, -sin 1)` lies at polar angle `-1`); the stored heading
is `-180/pi`, roughly `-57.3` degrees, outside `[0, 360)`. -/
theorem heading_range_counterexample :
    (∀ y x : ℚ, -trigC6.pi < trigC6.atan2 y x ∧ trigC6.atan2 y x ≤ trigC6.pi) ∧
    (ellTick trigC6 ellC6).angle = 1 ∧
    (ellTick trigC6 ellC6).heading = -(180 / trigC6.pi) ∧
    (ellTick trigC6 ellC6).heading < 0 ∧
    ¬ (0 ≤ (ellTick trigC6 ellC6).heading ∧
        (ellTick trigC6 ellC6).heading < 360) := by
  have hna : (ellTick trigC6 ellC6).angle = 1 := by
    show normalizeAngle trigC6 (ellC6.angle + (-1) * ellC6.speed) = 1
    norm_num [normalizeAngle, jsMod, ratTrunc, ellC6, trigC6, jsPi]
  have hh : (ellTick trigC6 ellC6).heading = -(180 / trigC6.pi) := by
    show trigC6.atan2 (-ellC6.radiusX * trigC6.sin (normalizeAngle trigC6 (ellC6.angle + (-1) * ellC6.speed)) * 1)
        (ellC6.radiusY * trigC6.cos (normalizeAngle trigC6 (ellC6.angle + (-1) * ellC6.speed)) * 1) *
        (180 / trigC6.pi) = -(180 / trigC6.pi)
    rw [show normalizeAngle trigC6 (ellC6.angle + (-1) * ellC6.speed) = 1 from hna]
    norm_num [trigC6, ellC6, sinOne]
  have hneg : (ellTick trigC6 ellC6).heading < 0 := by
    rw [hh]
    norm_num [trigC6, jsPi]
  refine ⟨?_, hna, hh, hneg, ?_⟩
  · intro y x
    simp only [trigC6]
    split_ifs <;> constructor <;> norm_num [jsPi]
  · intro h
    linarith [h.1]

/-- The `(x + 360) % 360` dividend of the capped-forward heading is
nonnegative for every initialization-produced parameter set: random draws in
`[0, 1]` give direction `>= 0` and curvature in `[-0.03, 0.03]`, the capped
distance stays below 3 (at most 100 ticks of speed at most `0.0222`), and
for any `pi >= 3` the curvature term is at most `5.4` degrees in magnitude —
so the hypothesis of the amended C6 theorem holds on the code's own inputs. -/
lemma init_dividend_nonneg (t : Trig) (rd rc : ℚ) (p : InPoint) (d : ℚ)
    (hrd : 0 ≤ rd) (hrc0 : 0 ≤ rc) (hrc1 : rc ≤ 1)
    (hd0 : 0 ≤ d) (hd1 : d ≤ 3) (hpi : 3 ≤ t.pi) :
    0 ≤ ((initFwdPoint rd rc p).direction * (t.pi / 180) +
      (initFwdPoint rd rc p).curvature * d) * (180 / t.pi) + 360 := by
  have hpi0 : (0 : ℚ) < t.pi := by linarith
  have hdir : (initFwdPoint rd rc p).direction = rd * 360 := rfl
  have hcurv : (initFwdPoint rd rc p).curvature = (rc * (2/1000) - 1/1000) * 30 := rfl
  have hC1 : -(3/100) ≤ (rc * (2/1000) - 1/1000) * 30 := by nlinarith
  have hC2 : (rc * (2/1000) - 1/1000) * 30 ≤ 3/100 := by nlinarith
  have hr1 : 180 / t.pi ≤ 60 := by
    rw [div_le_iff₀ hpi0]
    linarith
  have hr0 : (0 : ℚ) < 180 / t.pi := by positivity
  have hCd : -(9/100) ≤ (rc * (2/1000) - 1/1000) * 30 * d := by nlinarith
  have hCdr : -(27/5) ≤ (rc * (2/1000) - 1/1000) * 30 * d * (180 / t.pi) := by
    nlinarith [mul_le_mul_of_nonneg_right hr1 (by linarith : (0:ℚ) ≤ 9/100),
      mul_le_mul_of_nonneg_right hCd hr0.le]
  have hexp : (rd * 360 * (t.pi / 180) + (rc * (2/1000) - 1/1000) * 30 * d) *
      (180 / t.pi) = rd * 360 + (rc * (2/1000) - 1/1000) * 30 * d * (180 / t.pi) := by
    field_simp
    ring
  rw [hdir, hcurv, hexp]
  nlinarith

/-- C6 (amended): after every tick, the capped-forward model's recomputed
heading lies in `[0, 360)` whenever the `(x + 360) % 360` dividend is
nonnegative (which the initialization ranges guarantee), while the
elliptical model's recomputed heading lies in `(-180, 180]` — not `[0, 360)`
— given that `atan2` respects its real range `(-pi, pi]`. -/
theorem heading_ranges (t : Trig) (p : FwdPoint) (q : EllPoint)
    (hfw : 0 ≤ (p.direction * (t.pi / 180) + p.curvature * (p.distance + p.speed)) *
      (180 / t.pi) + 360)
    (hat : ∀ y x : ℚ, -t.pi < t.atan2 y x ∧ t.atan2 y x ≤ t.pi)
    (hpi : 0 < t.pi) :
    (0 ≤ (fwdTick t false p).heading ∧ (fwdTick t false p).heading < 360) ∧
    (-180 < (ellTick t q).heading ∧ (ellTick t q).heading ≤ 180) := by
  constructor
  · have h := jsMod_nonneg_lt _ 360 hfw (by norm_num)
    simpa [fwdTick] using h
  · simp only [ellTick]
    exact atan2_deg_range t hpi _ (hat _ _).1 (hat _ _).2

/-- Witness for C6's amended theorem, at a concrete forward point and the
concrete counterclockwise elliptical point. -/
theorem heading_ranges_witness :
    (0 : ℚ) < trigC6.pi ∧
    0 ≤ (fwdW.direction * (trigC6.pi / 180) +
      fwdW.curvature * (fwdW.distance + fwdW.speed)) * (180 / trigC6.pi) + 360 ∧
    (0 ≤ (fwdTick trigC6 false fwdW).heading ∧
      (fwdTick trigC6 false fwdW).heading < 360) ∧
    (-180 < (ellTick trigC6 ellC6).heading ∧
      (ellTick trigC6 ellC6).heading ≤ 180) := by
  have hat : ∀ y x : ℚ, -trigC6.pi < trigC6.atan2 y x ∧
      trigC6.atan2 y x ≤ trigC6.pi := by
    intro y x
    simp only [trigC6]
    split_ifs <;> constructor <;> norm_num [jsPi]
  have hfw : 0 ≤ (fwdW.direction * (trigC6.pi / 180) +
      fwdW.curvature * (fwdW.distance + fwdW.speed)) * (180 / trigC6.pi) + 360 := by
    norm_num [fwdW, trigC6, jsPi]
  have hpi : (0 : ℚ) < trigC6.pi := by norm_num [trigC6, jsPi]
  exact ⟨hpi, hfw, (heading_ranges trigC6 fwdW ellC6 hfw hat hpi).1,
    (heading_ranges trigC6 fwdW ellC6 hfw hat hpi).2⟩

/-! ## C4: elliptical orbits are periodic -/

/-- One elliptical tick never changes the orbit parameters (angular speed,
rotation direction, centre, radii). -/
lemma ellTick_params (t : Trig) (p : EllPoint) :
    (ellTick t p).speed = p.speed ∧ (ellTick t p).clockwise = p.clockwise ∧
    (ellTick t p).centerLat = p.centerLat ∧ (ellTick t p).centerLng = p.centerLng ∧
    (ellTick t p).radiusX = p.radiusX ∧ (ellTick t p).radiusY = p.radiusY :=
  ⟨rfl, rfl, rfl, rfl, rfl, rfl⟩

/-- The orbit parameters are constant along the whole trajectory. -/
lemma ellIter_params (t : Trig) (p : EllPoint) :
    ∀ n, ((ellTick t)^[n] p).speed = p.speed ∧
      ((ellTick t)^[n] p).clockwise = p.clockwise ∧
      ((ellTick t)^[n] p).centerLat = p.centerLat ∧
      ((ellTick t)^[n] p).centerLng = p.centerLng ∧
      ((ellTick t)^[n] p).radiusX = p.radiusX ∧
      ((ellTick t)^[n] p).radiusY = p.radiusY := by
  intro n
  induction n with
  | zero => exact ⟨rfl, rfl, rfl, rfl, rfl, rfl⟩
  | succ k ih =>
      rw [Function.iterate_succ_apply']
      obtain ⟨h1, h2, h3, h4, h5, h6⟩ := ih
      obtain ⟨g1, g2, g3, g4, g5, g6⟩ := ellTick_params t ((ellTick t)^[k] p)
      exact ⟨g1.trans h1, g2.trans h2, g3.trans h3, g4.trans h4,
        g5.trans h5, g6.trans h6⟩

/-- The tick's angle update, in terms of `jsMod` and the signed direction. -/
lemma ellTick_angle (t : Trig) (q : EllPoint) :
    (ellTick t q).angle = jsMod (q.angle + ellDir q * q.speed) (t.pi * 2) := rfl

/-- The stored angle after `n` ticks is the start angle plus the accumulated
signed increment, up to an integer number of `2 pi` periods removed by the
per-tick normalization. -/
lemma ellIter_angle (t : Trig) (p : EllPoint) :
    ∀ n : ℕ, ∃ k : ℤ, ((ellTick t)^[n] p).angle =
      p.angle + (n : ℚ) * (ellDir p * p.speed) - (k : ℚ) * (t.pi * 2) := by
  intro n
  induction n with
  | zero => exact ⟨0, by simp⟩
  | succ j ih =>
      obtain ⟨k, hk⟩ := ih
      rw [Function.iterate_succ_apply', ellTick_angle]
      obtain ⟨hsp, hcw, _, _, _, _⟩ := ellIter_params t p j
      have hdir : ellDir ((ellTick t)^[j] p) = ellDir p := by
        rw [ellDir, ellDir, hcw]
      obtain ⟨i, hi⟩ := jsMod_sub_int_mul
        (((ellTick t)^[j] p).angle + ellDir ((ellTick t)^[j] p) *
          ((ellTick t)^[j] p).speed) (t.pi * 2)
      refine ⟨k + i, ?_⟩
      rw [hi, hdir, hsp, hk]
      push_cast
      ring

/-- After any tick, the stored position is the ellipse position at the
stored angle. -/
lemma ellTick_lat_coherent (t : Trig) (q : EllPoint) :
    (ellTick t q).lat = ellipseLat t (ellTick t q) ((ellTick t q).angle) := rfl

/-- Longitude counterpart of `ellTick_lat_coherent`. -/
lemma ellTick_lng_coherent (t : Trig) (q : EllPoint) :
    (ellTick t q).lng = ellipseLng t (ellTick t q) ((ellTick t q).angle) := rfl

/-- After ticks whose accumulated signed angular increment is a whole number
of revolutions, the position is the ellipse position at the start angle
(for periodic `sin`/`cos`, the idealization of floating-point tolerance). -/
lemma ell_return_aux (t : Trig) (p : EllPoint) (n : ℕ) (m : ℤ)
    (hs : ∀ x, t.sin (x + t.pi * 2) = t.sin x)
    (hc : ∀ x, t.cos (x + t.pi * 2) = t.cos x)
    (hrev : (n : ℚ) * (ellDir p * p.speed) = (m : ℚ) * (t.pi * 2))
    (hn : 1 ≤ n) :
    ((ellTick t)^[n] p).lat = ellipseLat t p p.angle ∧
    ((ellTick t)^[n] p).lng = ellipseLng t p p.angle := by
  obtain ⟨j, rfl⟩ : ∃ j, n = j + 1 := ⟨n - 1, by omega⟩
  obtain ⟨k, hk⟩ := ellIter_angle t p (j + 1)
  have hangle : ((ellTick t)^[j+1] p).angle =
      p.angle + ((m - k : ℤ) : ℚ) * (t.pi * 2) := by
    rw [hk, hrev]
    push_cast
    ring
  obtain ⟨_, _, hclat, hclng, hrx, hry⟩ := ellIter_params t p (j + 1)
  have hlat : ((ellTick t)^[j+1] p).lat =
      ellipseLat t ((ellTick t)^[j+1] p) (((ellTick t)^[j+1] p).angle) := by
    rw [Function.iterate_succ_apply']
    exact ellTick_lat_coherent t _
  have hlng : ((ellTick t)^[j+1] p).lng =
      ellipseLng t ((ellTick t)^[j+1] p) (((ellTick t)^[j+1] p).angle) := by
    rw [Function.iterate_succ_apply']
    exact ellTick_lng_coherent t _
  constructor
  · rw [hlat, ellipseLat, ellipseLat, hclat, hry, hangle,
      periodic_int_mul t.sin (t.pi * 2) hs (m - k) p.angle]
  · rw [hlng, ellipseLng, ellipseLng, hclng, hrx, hangle,
      periodic_int_mul t.cos (t.pi * 2) hc (m - k) p.angle]

/-- C4: under the elliptical model with `2 pi`-periodic `sin`/`cos` (the
idealization of "within floating-point tolerance"), whenever `n` ticks
accumulate a signed angular increment equal to a whole number `m` of full
revolutions, the position after those `n` ticks equals the ellipse position
at the starting angle; moreover the whole orbit is periodic with period `n`
from any tick onward — motion never terminates, the tick map being total. -/
theorem elliptical_full_revolution (t : Trig) (p : EllPoint) (n : ℕ) (m : ℤ)
    (hs : ∀ x, t.sin (x + t.pi * 2) = t.sin x)
    (hc : ∀ x, t.cos (x + t.pi * 2) = t.cos x)
    (hrev : (n : ℚ) * (ellDir p * p.speed) = (m : ℚ) * (t.pi * 2))
    (hn : 1 ≤ n) :
    (((ellTick t)^[n] p).lat = ellipseLat t p p.angle ∧
     ((ellTick t)^[n] p).lng = ellipseLng t p p.angle) ∧
    ∀ j : ℕ, 1 ≤ j →
      ((ellTick t)^[n + j] p).lat = ((ellTick t)^[j] p).lat ∧
      ((ellTick t)^[n + j] p).lng = ((ellTick t)^[j] p).lng := by
  refine ⟨ell_return_aux t p n m hs hc hrev hn, ?_⟩
  intro j hj
  have hiter : (ellTick t)^[n + j] p = (ellTick t)^[n] ((ellTick t)^[j] p) :=
    Function.iterate_add_apply _ n j p
  obtain ⟨hsp, hcw, hclat, hclng, hrx, hry⟩ := ellIter_params t p j
  have hrev2 : (n : ℚ) * (ellDir ((ellTick t)^[j] p) * ((ellTick t)^[j] p).speed) =
      (m : ℚ) * (t.pi * 2) := by
    rw [show ellDir ((ellTick t)^[j] p) = ellDir p from by rw [ellDir, ellDir, hcw],
      hsp]
    exact hrev
  have hres := ell_return_aux t ((ellTick t)^[j] p) n m hs hc hrev2 hn
  obtain ⟨j2, rfl⟩ : ∃ j2, j = j2 + 1 := ⟨j - 1, by omega⟩
  have hcoh1 : ((ellTick t)^[j2+1] p).lat =
      ellipseLat t ((ellTick t)^[j2+1] p) (((ellTick t)^[j2+1] p).angle) := by
    rw [Function.iterate_succ_apply']
    exact ellTick_lat_coherent t _
  have hcoh2 : ((ellTick t)^[j2+1] p).lng =
      ellipseLng t ((ellTick t)^[j2+1] p) (((ellTick t)^[j2+1] p).angle) := by
    rw [Function.iterate_succ_apply']
    exact ellTick_lng_coherent t _
  constructor
  · rw [hiter, hres.1, ← hcoh1]
  · rw [hiter, hres.2, ← hcoh2]

/-- Witness for C4: with `pi = 3` (so one period is 6) and angular speed 3,
two clockwise ticks make one full revolution and return the position to the
ellipse position at the starting angle. -/
theorem elliptical_full_revolution_witness :
    (1 : ℕ) ≤ 2 ∧
    ((2 : ℕ) : ℚ) * (ellDir ellW * ellW.speed) = ((1 : ℤ) : ℚ) * (trigConst.pi * 2) ∧
    ((ellTick trigConst)^[2] ellW).lat = ellipseLat trigConst ellW ellW.angle ∧
    ((ellTick trigConst)^[2] ellW).lng = ellipseLng trigConst ellW ellW.angle := by
  have hrev : ((2 : ℕ) : ℚ) * (ellDir ellW * ellW.speed) =
      ((1 : ℤ) : ℚ) * (trigConst.pi * 2) := by
    norm_num [ellDir, ellW, trigConst]
  have h := elliptical_full_revolution trigConst ellW 2 1
    (fun x => rfl) (fun x => rfl) hrev (by norm_num)
  exact ⟨by norm_num, hrev, h.1.1, h.1.2⟩

end Minerva
